import Mathlib

/-
Shallow embedding of the ycrawler repository (fetcher.py, ycrawler.py,
parsers.py, main.py) for checking its specification.

Modelling conventions:
* An HTTP exchange is abstracted by `RequestOutcome`: the four exception
  kinds the except-clauses of `URLFetcher.fetch_page` catch, an aiohttp
  ServerDisconnectedError that none of them catches, or a completed
  `HttpResponse` whose Content-Type header may be absent and whose body
  reads (`response.read()` / `response.text()`) may themselves fail.
  `fetch_page` can therefore raise, and returns `Except PyExc FetchResult`.
* The filesystem is abstracted by `FsEnv` (which paths exist, which
  directory creations and writes succeed); performed effects are returned
  as a `List FsEffect` so that "zero writes" is a provable statement.
* Python exceptions that the repository's own code can raise to its caller
  are the `PyExc` type; a function that can raise returns `Except PyExc`.
* Python truthiness of an optional body (`if not fetch_result.content`)
  treats None, the empty string and empty bytes as falsy (`pyTruthy`).
* `'%s%s' % (uid, ext)` with `ext = None` yields the literal text "None"
  appended to uid; `pyFormat` embeds this faithfully.
* The HTML extractors of parsers.py are external collaborators per the
  spec; they enter as abstract function parameters (`parse_comments`,
  and the already-parsed `top_news` list for the front page).
-/

namespace YCrawlerModel

/-- Body payload of an HTTP response as the Python code sees it: raw bytes
from `response.read()` or decoded text from `response.text()`. -/
inductive Content where
  | bytes (data : List Nat)
  | text (s : String)
deriving DecidableEq

/-- Emptiness of a body payload (`''` or `b''`). -/
def Content.isEmpty : Content → Bool
  | Content.bytes d => d.isEmpty
  | Content.text s => s.isEmpty

/-- Python truthiness of an optional body: None, empty str and empty bytes
are all falsy. -/
def pyTruthy : Option Content → Bool
  | none => false
  | some c => !c.isEmpty

/-- Python `'%s' %` formatting of a value that may be None: None prints as
the four-character string "None" (fetcher.py line 82). -/
def pyFormat : Option String → String
  | none => "None"
  | some s => s

/-- os.path.join of two components. -/
def osPathJoin (a b : String) : String := a ++ "/" ++ b

/-- `content_type.partition(';')[0]`: the part before the first ';' (the
whole string when there is no ';'). -/
def pyPartitionBeforeSemicolon (s : String) : String :=
  String.mk (s.data.takeWhile (fun ch => ch ≠ ';'))

/-- Python `str.strip()`: remove leading and trailing whitespace. -/
def pyStrip (s : String) : String :=
  String.mk (((s.data.dropWhile Char.isWhitespace).reverse.dropWhile Char.isWhitespace).reverse)

/-- Model of the stdlib `mimetypes.guess_extension`, restricted to the
content types this development mentions; an unrecognized type maps to
`none`, exactly as the stdlib returns None. -/
def guess_extension (mime : String) : Option String :=
  if mime = "application/pdf" then some ".pdf"
  else if mime = "image/png" then some ".png"
  else if mime = "text/html" then some ".html"
  else if mime = "text/plain" then some ".txt"
  else none

/-- fetcher.py line 9. -/
def ALLOWED_FILE_CONTENT_TYPES : List String := ["application/pdf", "image/png"]

/-- An exception raised while reading the response body inside the inner
try of `fetch_page`: `UnicodeDecodeError` or any other exception. -/
inductive BodyReadError where
  | unicodeDecodeError
  | otherException
deriving DecidableEq

deriving instance DecidableEq for Except

/-- A completed HTTP exchange: status (2xx, since `raise_for_status=True`
turns non-2xx into `ClientResponseError`), the Content-Type header — which
the server may omit, in which case the raw lookup
`response.headers['Content-Type']` at fetcher.py line 35 raises KeyError —
declared or inferred encoding, and the two possible body reads. -/
structure HttpResponse where
  status : Nat
  contentType : Option String
  encoding : Option String
  readBody : Except BodyReadError (List Nat)
  textBody : Except BodyReadError String
deriving DecidableEq

/-- Everything the awaited `session.get` can do: the four exception kinds
the except-clauses of `URLFetcher.fetch_page` catch (fetcher.py lines
54-66); an aiohttp ServerDisconnectedError — a ClientConnectionError that
is neither a ClientOSError nor a ClientResponseError, so no clause catches
it; or a completed exchange. -/
inductive RequestOutcome where
  | timeoutError
  | invalidURL
  | clientResponseError (status : Nat)
  | clientOSError
  | serverDisconnectedError
  | response (resp : HttpResponse)

/-- fetcher.py line 12. -/
structure FetchResult where
  status : Option Nat
  content : Option Content
  encoding : Option String
  ext : Option String
  link : String
  params : List (String × String)
deriving DecidableEq

/-- The failure value returned at fetcher.py line 68: status and content
(and encoding and ext) are all None. -/
def failureFetchResult (link : String) (params : List (String × String)) : FetchResult :=
  FetchResult.mk none none none none link params

/-- A Python exception the repository's own code can raise to its caller:
an OSError from the writer path, a KeyError from the raw
`response.headers['Content-Type']` lookup or from `set.remove`, or an
aiohttp ServerDisconnectedError that no except-clause catches. -/
inductive PyExc where
  | osError (path : String)
  | keyError (key : String)
  | serverDisconnected
deriving DecidableEq

/-- Embeds `URLFetcher.fetch_page` (fetcher.py lines 23-68). Each caught
exception (timeout, invalid URL, ClientResponseError, ClientOSError, and
the body-read failures caught by the inner except-clauses) falls through to
the final failure return at line 68. A ServerDisconnectedError matches no
except-clause and propagates. A completed exchange first reads
`response.headers['Content-Type']` (line 35): when the header is absent
this raises KeyError, which the outer except-clauses do not catch either.
Otherwise the extension is computed from the parameter-stripped content
type, and the body is read as bytes when the full declared content type is
in the allow-list and as text otherwise. -/
def fetch_page (o : RequestOutcome) (link : String) (params : List (String × String)) :
    Except PyExc FetchResult :=
  match o with
  | RequestOutcome.timeoutError => Except.ok (failureFetchResult link params)
  | RequestOutcome.invalidURL => Except.ok (failureFetchResult link params)
  | RequestOutcome.clientResponseError _ => Except.ok (failureFetchResult link params)
  | RequestOutcome.clientOSError => Except.ok (failureFetchResult link params)
  | RequestOutcome.serverDisconnectedError => Except.error PyExc.serverDisconnected
  | RequestOutcome.response resp =>
    match resp.contentType with
    | none => Except.error (PyExc.keyError "Content-Type")
    | some ct =>
      let ext := guess_extension (pyStrip (pyPartitionBeforeSemicolon ct))
      let body : Except BodyReadError Content :=
        if ct ∈ ALLOWED_FILE_CONTENT_TYPES
        then Except.map Content.bytes resp.readBody
        else Except.map Content.text resp.textBody
      match body with
      | Except.error _ => Except.ok (failureFetchResult link params)
      | Except.ok c =>
        Except.ok (FetchResult.mk (some resp.status) (some c) resp.encoding ext link params)

/-- A filesystem side effect performed by the writer path. -/
inductive FsEffect where
  | makeDirs (dir : String)
  | writeFile (path : String) (content : Content)
deriving DecidableEq

/-- The filesystem environment: which directories `os.path.exists` reports,
and which directory creations and file writes succeed. -/
structure FsEnv where
  dirExists : String → Bool
  mkdirOk : String → Bool
  writeOk : String → Content → Bool

/-- fetcher.py line 13. -/
structure DownloadResult where
  uid : String
  filepath : Option String
  success : Bool
deriving DecidableEq

/-- Embeds `URLFetcher.download_page` (fetcher.py lines 70-75): opens the
file (binary or text mode matching the payload) and writes; there is no
try/except here, so an I/O failure raises to the caller. -/
def download_page (env : FsEnv) (filepath : String) (content : Content) :
    Except PyExc (List FsEffect) :=
  if env.writeOk filepath content then Except.ok [FsEffect.writeFile filepath content]
  else Except.error (PyExc.osError filepath)

/-- Embeds `URLFetcher.fetch_and_download` (fetcher.py lines 77-87),
additionally returning the list of filesystem effects performed. An
exception raised by the awaited `fetch_page` propagates. A falsy (absent
or empty) fetched content short-circuits to a failed DownloadResult with
no write attempted; otherwise the file path is `save_to_dir / (uid ++ ext)`
with ext Python-formatted (None prints as "None"); unless dry_run, missing
directories are created and the content written, and any OSError there
propagates uncaught. -/
def fetch_and_download (env : FsEnv) (o : RequestOutcome) (uid link save_to_dir : String)
    (params : List (String × String)) (dry_run : Bool) :
    Except PyExc (DownloadResult × List FsEffect) :=
  match fetch_page o link params with
  | Except.error e => Except.error e
  | Except.ok fetch_result =>
    match fetch_result.content with
    | none => Except.ok (DownloadResult.mk uid none false, [])
    | some c =>
      if c.isEmpty then Except.ok (DownloadResult.mk uid none false, [])
      else
        let filepath := osPathJoin save_to_dir (uid ++ pyFormat fetch_result.ext)
        if dry_run then Except.ok (DownloadResult.mk uid (some filepath) true, [])
        else
          let dirEffs : Except PyExc (List FsEffect) :=
            if env.dirExists save_to_dir then Except.ok []
            else if env.mkdirOk save_to_dir then Except.ok [FsEffect.makeDirs save_to_dir]
            else Except.error (PyExc.osError save_to_dir)
          match dirEffs with
          | Except.error e => Except.error e
          | Except.ok effs1 =>
            match download_page env filepath c with
            | Except.error e => Except.error e
            | Except.ok effs2 =>
              Except.ok (DownloadResult.mk uid (some filepath) true, effs1 ++ effs2)

/-- ycrawler.py line 14. -/
def COMMENT_PAGE_URL : String := "https://news.ycombinator.com/item"

/-- The comment-link fan-out of `process_page` (ycrawler.py lines 39-53):
one `fetch_and_download` per extracted link, the i-th link using the i-th
request outcome and the i-th generated uuid, all saving under
`save_to_dir/links`; `asyncio.gather(..., return_exceptions=False)`
propagates the first exception, otherwise the effects are concatenated. -/
def gather_links (env : FsEnv) (commentAt : Nat → RequestOutcome) (uuidAt : Nat → String)
    (save_to_dir : String) (dry_run : Bool) :
    Nat → List String → Except PyExc (List FsEffect)
  | _, [] => Except.ok []
  | i, lnk :: rest =>
    match fetch_and_download env (commentAt i) (uuidAt i) lnk
        (osPathJoin save_to_dir "links") [] dry_run with
    | Except.error e => Except.error e
    | Except.ok pr =>
      match gather_links env commentAt uuidAt save_to_dir dry_run (i + 1) rest with
      | Except.error e => Except.error e
      | Except.ok more => Except.ok (pr.2 ++ more)

/-- Embeds `YCrawler.process_page` (ycrawler.py lines 29-54): store the
story itself, then fetch the discussion page for uid (an exception raised
by either awaited call propagates); when the discussion page has truthy
content, extract comment links (external collaborator `parse_comments`)
and, when any, run `fetch_and_download` for each; finally return the
story's own download result. -/
def process_page (env : FsEnv) (storyO discO : RequestOutcome)
    (commentAt : Nat → RequestOutcome) (uuidAt : Nat → String)
    (parse_comments : Content → List String)
    (uid link save_to_dir : String) (dry_run : Bool) :
    Except PyExc (DownloadResult × List FsEffect) :=
  match fetch_and_download env storyO uid link save_to_dir [] dry_run with
  | Except.error e => Except.error e
  | Except.ok dr =>
    match fetch_page discO COMMENT_PAGE_URL [("id", uid)] with
    | Except.error e => Except.error e
    | Except.ok fetch_results =>
      match fetch_results.content with
      | none => Except.ok dr
      | some c =>
        if c.isEmpty then Except.ok dr
        else
          let comments_links := parse_comments c
          if comments_links.isEmpty then Except.ok dr
          else
            match gather_links env commentAt uuidAt save_to_dir dry_run 0 comments_links with
            | Except.error e => Except.error e
            | Except.ok effs1 => Except.ok (dr.1, dr.2 ++ effs1)

/-- ycrawler.py lines 26-27: the orchestrator's two sets of story ids. -/
structure CrawlState where
  scheduled : Finset String
  visited : Finset String
deriving DecidableEq

/-- The state at process start: both sets empty. -/
def initState : CrawlState := CrawlState.mk ∅ ∅

/-- The Filter & Schedule step (ycrawler.py lines 63-72): walk the parsed
top_news `(uid, link)` pairs in order, skip any uid already in scheduled or
visited, otherwise add it to scheduled and launch a task for it. Returns
the new state and the launched uids in launch order. -/
def schedule_step : CrawlState → List (String × String) → CrawlState × List String
  | st, [] => (st, [])
  | st, (uid, _) :: rest =>
    if uid ∈ st.scheduled ∨ uid ∈ st.visited then schedule_step st rest
    else
      let next := schedule_step (CrawlState.mk (insert uid st.scheduled) st.visited) rest
      (next.1, uid :: next.2)

/-- Python `set.remove`: removes the element, raising KeyError when it is
absent (ycrawler.py line 91). -/
def pySetRemove (s : Finset String) (x : String) : Except PyExc (Finset String) :=
  if x ∈ s then Except.ok (s.erase x) else Except.error (PyExc.keyError x)

/-- The Reconcile step, `after_main_page_processed` (ycrawler.py lines
86-91): for each completed DownloadResult — `gather` with
`return_exceptions=False` never places an Exception in the results list —
add its uid to visited and remove it from scheduled, with no look at
`result.success`. (The code adds to visited before removing; the error
branch here is proved unreachable for reachable states, so the order is
immaterial.) -/
def reconcile : CrawlState → List DownloadResult → Except PyExc CrawlState
  | st, [] => Except.ok st
  | st, r :: rest =>
    match pySetRemove st.scheduled r.uid with
    | Except.error e => Except.error e
    | Except.ok sched => reconcile (CrawlState.mk sched (insert r.uid st.visited)) rest

/-- One orchestration cycle: `process_main_page` (ycrawler.py lines 56-80)
followed by its `after_main_page_processed` callback. `front` is the
front-page fetch's content; `top_news` the externally parsed candidates;
`result_of` gives the filepath and success of the page-processor task
launched for a uid (a task's returned uid equals the uid it was launched
with, see `process_page_uid`). When the front content is falsy the
function returns with no results and the callback does nothing; likewise
when no tasks were launched. Returns the reconciled state and the uids
launched this cycle. -/
def run_cycle (st : CrawlState) (front : Option Content)
    (top_news : List (String × String)) (result_of : String → Option String × Bool) :
    Except PyExc (CrawlState × List String) :=
  if !pyTruthy front then Except.ok (st, [])
  else
    let sr := schedule_step st top_news
    if sr.2.isEmpty then Except.ok (sr.1, [])
    else
      let results := sr.2.map (fun uid => DownloadResult.mk uid (result_of uid).1 (result_of uid).2)
      match reconcile sr.1 results with
      | Except.error e => Except.error e
      | Except.ok st2 => Except.ok (st2, sr.2)

/-- The inputs one cycle of `YCrawler.run` consumes from its environment. -/
structure CycleInput where
  front : Option Content
  top_news : List (String × String)
  result_of : String → Option String × Bool

/-- The `YCrawler.run` loop (ycrawler.py lines 95-108) over a finite prefix
of cycles, accumulating every launched uid in `log`. -/
def run_trace : CrawlState → List String → List CycleInput →
    Except PyExc (CrawlState × List String)
  | st, log, [] => Except.ok (st, log)
  | st, log, i :: rest =>
    match run_cycle st i.front i.top_news i.result_of with
    | Except.error e => Except.error e
    | Except.ok p => run_trace p.1 (log ++ p.2) rest

/-- Concrete filesystem environment where every directory exists and every
write succeeds. -/
def envAllOk : FsEnv := FsEnv.mk (fun _ => true) (fun _ => true) (fun _ _ => true)

/-- Concrete filesystem environment where every disk write fails. -/
def envWriteFails : FsEnv := FsEnv.mk (fun _ => true) (fun _ => true) (fun _ _ => false)

/-- A 200 text response whose declared content type has no known extension. -/
def respUnknownType : HttpResponse :=
  HttpResponse.mk 200 (some "application/x-foobar") none (Except.ok []) (Except.ok "hello")

/-- A plain 200 text/html response. -/
def respHtmlHello : HttpResponse :=
  HttpResponse.mk 200 (some "text/html") none (Except.ok []) (Except.ok "hello")

/-- A 200 response declaring application/pdf with a charset parameter. -/
def respPdfWithCharset : HttpResponse :=
  HttpResponse.mk 200 (some "application/pdf; charset=utf-8") none
    (Except.ok [1, 2]) (Except.ok "pdftext")

/-- A 200 text response that carries no Content-Type header at all. -/
def respNoContentType : HttpResponse :=
  HttpResponse.mk 200 none none (Except.ok []) (Except.ok "hello")

lemma fad_error_propagates (env : FsEnv) (o : RequestOutcome) (uid link dir : String)
    (params : List (String × String)) (dry : Bool) (e : PyExc)
    (h : fetch_page o link params = Except.error e) :
    fetch_and_download env o uid link dir params dry = Except.error e := by
  simp [fetch_and_download, h]

lemma truthy_content (fr : FetchResult) (h : pyTruthy fr.content = true) :
    ∃ c, fr.content = some c ∧ c.isEmpty = false := by
  cases hc : fr.content with
  | none => rw [hc] at h; simp [pyTruthy] at h
  | some c =>
    refine ⟨c, rfl, ?_⟩
    rw [hc] at h
    simpa [pyTruthy] using h

lemma fad_falsy (env : FsEnv) (o : RequestOutcome) (uid link dir : String)
    (params : List (String × String)) (dry : Bool) (fr : FetchResult)
    (hok : fetch_page o link params = Except.ok fr)
    (h : pyTruthy fr.content = false) :
    fetch_and_download env o uid link dir params dry
      = Except.ok (DownloadResult.mk uid none false, []) := by
  cases hc : fr.content with
  | none => simp [fetch_and_download, hok, hc]
  | some c =>
    have hce : c.isEmpty = true := by
      rw [hc] at h
      simpa [pyTruthy] using h
    simp [fetch_and_download, hok, hc, hce]

lemma fad_truthy_shape (env : FsEnv) (o : RequestOutcome) (uid link dir : String)
    (params : List (String × String)) (dry : Bool) (fr : FetchResult) (c : Content)
    (hok : fetch_page o link params = Except.ok fr)
    (hc : fr.content = some c) (hce : c.isEmpty = false) :
    (fetch_and_download env o uid link dir params dry
        = Except.ok (DownloadResult.mk uid
            (some (osPathJoin dir (uid ++ pyFormat fr.ext))) true,
          []) ∧ dry = true) ∨
    (∃ effs, fetch_and_download env o uid link dir params dry
        = Except.ok (DownloadResult.mk uid
            (some (osPathJoin dir (uid ++ pyFormat fr.ext))) true,
          effs) ∧ dry = false) ∨
    (∃ p, fetch_and_download env o uid link dir params dry = Except.error (PyExc.osError p)
      ∧ dry = false) := by
  simp only [fetch_and_download, hok, hc, hce, Bool.false_eq_true, if_false]
  cases dry with
  | true => left; exact ⟨rfl, rfl⟩
  | false =>
    by_cases hde : env.dirExists dir = true
    · simp only [hde, if_true]
      by_cases hw : env.writeOk (osPathJoin dir (uid ++ pyFormat fr.ext)) c = true
      · right; left
        refine ⟨[FsEffect.writeFile (osPathJoin dir (uid ++ pyFormat fr.ext)) c], ?_, trivial⟩
        simp [download_page, hw]
      · right; right
        refine ⟨osPathJoin dir (uid ++ pyFormat fr.ext), ?_, trivial⟩
        simp [download_page, hw]
    · simp only [hde, Bool.false_eq_true, if_false]
      by_cases hmk : env.mkdirOk dir = true
      · simp only [hmk, if_true]
        by_cases hw : env.writeOk (osPathJoin dir (uid ++ pyFormat fr.ext)) c = true
        · right; left
          refine ⟨[FsEffect.makeDirs dir,
            FsEffect.writeFile (osPathJoin dir (uid ++ pyFormat fr.ext)) c], ?_, trivial⟩
          simp [download_page, hw]
        · right; right
          refine ⟨osPathJoin dir (uid ++ pyFormat fr.ext), ?_, trivial⟩
          simp [download_page, hw]
      · right; right
        exact ⟨dir, by simp [hmk], trivial⟩

lemma crawlState_ext (a b : CrawlState) (h1 : a.scheduled = b.scheduled)
    (h2 : a.visited = b.visited) : a = b := by
  cases a
  cases b
  cases h1
  cases h2
  rfl

lemma schedule_step_visited (tn : List (String × String)) :
    ∀ st : CrawlState, (schedule_step st tn).1.visited = st.visited := by
  induction tn with
  | nil => intro st; rfl
  | cons p rest ih =>
    intro st
    obtain ⟨uid, lnk⟩ := p
    by_cases h : uid ∈ st.scheduled ∨ uid ∈ st.visited
    · simp [schedule_step, h, ih]
    · simp [schedule_step, h, ih]

lemma schedule_step_scheduled (tn : List (String × String)) :
    ∀ st : CrawlState,
      (schedule_step st tn).1.scheduled = st.scheduled ∪ (schedule_step st tn).2.toFinset := by
  induction tn with
  | nil => intro st; simp [schedule_step]
  | cons p rest ih =>
    intro st
    obtain ⟨uid, lnk⟩ := p
    by_cases h : uid ∈ st.scheduled ∨ uid ∈ st.visited
    · simp [schedule_step, h, ih]
    · simp only [schedule_step, h, if_false]
      rw [ih]
      ext x
      simp [Finset.mem_insert]

lemma schedule_step_fresh (tn : List (String × String)) :
    ∀ st : CrawlState, ∀ u ∈ (schedule_step st tn).2,
      u ∉ st.scheduled ∧ u ∉ st.visited := by
  induction tn with
  | nil => intro st u hu; simp [schedule_step] at hu
  | cons p rest ih =>
    intro st u hu
    obtain ⟨uid, lnk⟩ := p
    by_cases h : uid ∈ st.scheduled ∨ uid ∈ st.visited
    · simp only [schedule_step, h, if_true] at hu
      exact ih st u hu
    · simp only [schedule_step, h, if_false, List.mem_cons] at hu
      push_neg at h
      rcases hu with rfl | hu
      · exact ⟨h.1, h.2⟩
      · have h2 := ih (CrawlState.mk (insert uid st.scheduled) st.visited) u hu
        exact ⟨fun hm => h2.1 (Finset.mem_insert_of_mem hm), h2.2⟩

lemma schedule_step_nodup (tn : List (String × String)) :
    ∀ st : CrawlState, (schedule_step st tn).2.Nodup := by
  induction tn with
  | nil => intro st; simp [schedule_step]
  | cons p rest ih =>
    intro st
    obtain ⟨uid, lnk⟩ := p
    by_cases h : uid ∈ st.scheduled ∨ uid ∈ st.visited
    · simpa [schedule_step, h] using ih st
    · simp only [schedule_step, h, if_false, List.nodup_cons]
      refine ⟨fun hm => ?_, ih _⟩
      have h2 := schedule_step_fresh rest (CrawlState.mk (insert uid st.scheduled) st.visited)
        uid hm
      exact h2.1 (Finset.mem_insert_self uid st.scheduled)

lemma schedule_step_disjoint (st : CrawlState) (tn : List (String × String))
    (hd : Disjoint st.scheduled st.visited) :
    Disjoint (schedule_step st tn).1.scheduled (schedule_step st tn).1.visited := by
  rw [schedule_step_scheduled, schedule_step_visited, Finset.disjoint_union_left]
  refine ⟨hd, ?_⟩
  rw [Finset.disjoint_left]
  intro u hu
  exact (schedule_step_fresh tn st u (List.mem_toFinset.mp hu)).2

lemma reconcile_ok (rs : List DownloadResult) :
    ∀ st : CrawlState, (∀ r ∈ rs, r.uid ∈ st.scheduled) →
    (rs.map DownloadResult.uid).Nodup →
    ∃ st2, reconcile st rs = Except.ok st2 ∧
      (∀ x, x ∈ st2.scheduled ↔ x ∈ st.scheduled ∧ x ∉ rs.map DownloadResult.uid) ∧
      (∀ x, x ∈ st2.visited ↔ x ∈ st.visited ∨ x ∈ rs.map DownloadResult.uid) := by
  induction rs with
  | nil =>
    intro st _ _
    exact ⟨st, rfl, by simp, by simp⟩
  | cons r rest ih =>
    intro st hmem hnd
    have hr : r.uid ∈ st.scheduled := hmem r (by simp)
    have hcons : r.uid ∉ rest.map DownloadResult.uid ∧ (rest.map DownloadResult.uid).Nodup := by
      rw [List.map_cons, List.nodup_cons] at hnd
      exact hnd
    have hmem1 : ∀ s ∈ rest,
        s.uid ∈ (CrawlState.mk (st.scheduled.erase r.uid) (insert r.uid st.visited)).scheduled := by
      intro s hs
      have h1 : s.uid ∈ st.scheduled := hmem s (List.mem_cons_of_mem _ hs)
      have h2 : s.uid ≠ r.uid := by
        intro he
        exact hcons.1 (he ▸ List.mem_map_of_mem DownloadResult.uid hs)
      exact Finset.mem_erase.mpr ⟨h2, h1⟩
    obtain ⟨st2, hok, hs, hv⟩ := ih _ hmem1 hcons.2
    refine ⟨st2, ?_, ?_, ?_⟩
    · simp [reconcile, pySetRemove, hr, hok]
    · intro x
      rw [hs x]
      simp only [Finset.mem_erase, List.map_cons, List.mem_cons]
      constructor
      · rintro ⟨⟨hne, hmem2⟩, hnot⟩
        exact ⟨hmem2, fun h => h.elim (fun h1 => hne h1) hnot⟩
      · rintro ⟨hmem2, hnot⟩
        exact ⟨⟨fun h1 => hnot (Or.inl h1), hmem2⟩, fun h1 => hnot (Or.inr h1)⟩
    · intro x
      rw [hv x]
      simp only [Finset.mem_insert, List.map_cons, List.mem_cons]
      tauto

lemma reconcile_visited_mono (rs : List DownloadResult) :
    ∀ st st2 : CrawlState, reconcile st rs = Except.ok st2 → st.visited ⊆ st2.visited := by
  induction rs with
  | nil =>
    intro st st2 h
    injection h with h1
    rw [h1]
  | cons r rest ih =>
    intro st st2 h
    by_cases hr : r.uid ∈ st.scheduled
    · simp only [reconcile, pySetRemove, hr, if_true] at h
      intro x hx
      exact ih _ _ h (Finset.mem_insert_of_mem hx)
    · simp [reconcile, pySetRemove, hr] at h

/-- The reachability invariant of the orchestrator: scheduled and visited
are disjoint, no id was ever launched twice, and the ids launched so far
are exactly scheduled ∪ visited. -/
def goodState (st : CrawlState) (log : List String) : Prop :=
  Disjoint st.scheduled st.visited ∧ log.Nodup ∧
    st.scheduled ∪ st.visited = log.toFinset

lemma run_cycle_preserves (st : CrawlState) (log : List String) (f : Option Content)
    (tn : List (String × String)) (rf : String → Option String × Bool)
    (hg : goodState st log) :
    ∃ st2 L, run_cycle st f tn rf = Except.ok (st2, L) ∧
      goodState st2 (log ++ L) ∧ st.visited ⊆ st2.visited ∧
      st.scheduled ∪ st.visited ⊆ st2.scheduled ∪ st2.visited := by
  obtain ⟨hd, hnd, hu⟩ := hg
  cases hpt : pyTruthy f with
  | false =>
    refine ⟨st, [], by simp [run_cycle, hpt], ?_, Finset.Subset.refl _, Finset.Subset.refl _⟩
    simpa [goodState] using ⟨hd, hnd, hu⟩
  | true =>
    by_cases hL : (schedule_step st tn).2 = []
    · have hsch : (schedule_step st tn).1 = st := by
        apply crawlState_ext
        · rw [schedule_step_scheduled, hL]
          simp
        · exact schedule_step_visited tn st
      refine ⟨st, [], ?_, ?_, Finset.Subset.refl _, Finset.Subset.refl _⟩
      · simp [run_cycle, hpt, hL, hsch]
      · simpa [goodState] using ⟨hd, hnd, hu⟩
    · have hfresh := schedule_step_fresh tn st
      have hnodup := schedule_step_nodup tn st
      have hsched := schedule_step_scheduled tn st
      have hvis := schedule_step_visited tn st
      have hmapuid : (((schedule_step st tn).2.map
            (fun uid => DownloadResult.mk uid (rf uid).1 (rf uid).2)).map DownloadResult.uid)
          = (schedule_step st tn).2 := by
        rw [List.map_map]
        exact List.map_id' _
      have hmem : ∀ r ∈ (schedule_step st tn).2.map
          (fun uid => DownloadResult.mk uid (rf uid).1 (rf uid).2),
          r.uid ∈ (schedule_step st tn).1.scheduled := by
        intro r hrm
        obtain ⟨u, hu2, rfl⟩ := List.mem_map.mp hrm
        rw [hsched]
        exact Finset.mem_union_right _ (List.mem_toFinset.mpr hu2)
      obtain ⟨st2, hok, hs, hv⟩ := reconcile_ok _ ((schedule_step st tn).1) hmem
        (by rw [hmapuid]; exact hnodup)
      rw [hmapuid] at hs hv
      rw [hsched] at hs
      rw [hvis] at hv
      refine ⟨st2, (schedule_step st tn).2, ?_, ?_, ?_, ?_⟩
      · simp [run_cycle, hpt, hL, hok]
      · refine ⟨?_, ?_, ?_⟩
        · rw [Finset.disjoint_left]
          intro x hx hxv
          obtain ⟨hx1, hx2⟩ := (hs x).mp hx
          rcases (hv x).mp hxv with h1 | h1
          · rcases Finset.mem_union.mp hx1 with h2 | h2
            · exact (Finset.disjoint_left.mp hd h2) h1
            · exact (hfresh x (List.mem_toFinset.mp h2)).2 h1
          · exact hx2 h1
        · rw [List.nodup_append]
          refine ⟨hnd, hnodup, ?_⟩
          intro x hx hx2
          have hxin : x ∈ st.scheduled ∪ st.visited := by
            rw [hu]
            exact List.mem_toFinset.mpr hx
          rcases Finset.mem_union.mp hxin with h1 | h1
          · exact (hfresh x hx2).1 h1
          · exact (hfresh x hx2).2 h1
        · ext x
          rw [Finset.mem_union, hs x, hv x, List.toFinset_append, Finset.mem_union, ← hu]
          simp only [Finset.mem_union, List.mem_toFinset]
          constructor
          · rintro (⟨h1, h2⟩ | h1)
            · rcases h1 with h1 | h1
              · exact Or.inl (Or.inl h1)
              · exact absurd h1 h2
            · rcases h1 with h1 | h1
              · exact Or.inl (Or.inr h1)
              · exact Or.inr h1
          · rintro ((h1 | h1) | h1)
            · by_cases h2 : x ∈ (schedule_step st tn).2
              · exact Or.inr (Or.inr h2)
              · exact Or.inl ⟨Or.inl h1, h2⟩
            · exact Or.inr (Or.inl h1)
            · exact Or.inr (Or.inr h1)
      · intro x hx
        exact (hv x).mpr (Or.inl hx)
      · intro x hx
        rcases Finset.mem_union.mp hx with h1 | h1
        · by_cases h2 : x ∈ (schedule_step st tn).2
          · exact Finset.mem_union_right _ ((hv x).mpr (Or.inr h2))
          · exact Finset.mem_union_left _ ((hs x).mpr ⟨Finset.mem_union_left _ h1, h2⟩)
        · exact Finset.mem_union_right _ ((hv x).mpr (Or.inl h1))

lemma run_trace_preserves (t : List CycleInput) :
    ∀ (st : CrawlState) (log : List String), goodState st log →
    ∃ st2 log2, run_trace st log t = Except.ok (st2, log2) ∧ goodState st2 log2 ∧
      st.visited ⊆ st2.visited ∧
      st.scheduled ∪ st.visited ⊆ st2.scheduled ∪ st2.visited := by
  induction t with
  | nil =>
    intro st log hg
    exact ⟨st, log, rfl, hg, Finset.Subset.refl _, Finset.Subset.refl _⟩
  | cons i rest ih =>
    intro st log hg
    obtain ⟨st1, L, hc, hg1, hv1, hu1⟩ :=
      run_cycle_preserves st log i.front i.top_news i.result_of hg
    obtain ⟨st2, log2, ht, hg2, hv2, hu2⟩ := ih st1 (log ++ L) hg1
    refine ⟨st2, log2, ?_, hg2, hv1.trans hv2, hu1.trans hu2⟩
    simp [run_trace, hc, ht]

lemma run_trace_append (t1 t2 : List CycleInput) :
    ∀ (st : CrawlState) (log : List String),
      run_trace st log (t1 ++ t2) =
        match run_trace st log t1 with
        | Except.error e => Except.error e
        | Except.ok p => run_trace p.1 p.2 t2 := by
  induction t1 with
  | nil => intro st log; rfl
  | cons i rest ih =>
    intro st log
    simp only [List.cons_append, run_trace]
    cases run_cycle st i.front i.top_news i.result_of with
    | error e => rfl
    | ok p => exact ih p.1 (log ++ p.2)

lemma run_cycle_visited_mono (st : CrawlState) (f : Option Content)
    (tn : List (String × String)) (rf : String → Option String × Bool)
    (st2 : CrawlState) (L : List String)
    (h : run_cycle st f tn rf = Except.ok (st2, L)) :
    st.visited ⊆ st2.visited ∧ ∀ u ∈ st.visited, u ∉ L := by
  cases hpt : pyTruthy f with
  | false =>
    simp only [run_cycle, hpt, Bool.not_false, if_true] at h
    have h2 : st = st2 ∧ ([] : List String) = L := by simpa using h
    rw [← h2.1, ← h2.2]
    exact ⟨Finset.Subset.refl _, by simp⟩
  | true =>
    simp only [run_cycle, hpt, Bool.not_true, Bool.false_eq_true, if_false] at h
    by_cases hL : (schedule_step st tn).2 = []
    · rw [if_pos (by simp [hL])] at h
      have h2 : (schedule_step st tn).1 = st2 ∧ ([] : List String) = L := by simpa using h
      rw [← h2.1, ← h2.2]
      rw [← schedule_step_visited tn st]
      exact ⟨Finset.Subset.refl _, by simp⟩
    · rw [if_neg (by simp [hL])] at h
      cases hrec : reconcile (schedule_step st tn).1
          ((schedule_step st tn).2.map
            (fun uid => DownloadResult.mk uid (rf uid).1 (rf uid).2)) with
      | error e => rw [hrec] at h; simp at h
      | ok st3 =>
        rw [hrec] at h
        have h2 : st3 = st2 ∧ (schedule_step st tn).2 = L := by simpa using h
        have hmono := reconcile_visited_mono _ _ _ hrec
        rw [schedule_step_visited tn st] at hmono
        constructor
        · rw [← h2.1]
          exact hmono
        · intro u hu
          rw [← h2.2]
          intro huL
          exact (schedule_step_fresh tn st u huL).2 hu

lemma visited_stays_logged (t : List CycleInput) :
    ∀ (st : CrawlState) (log : List String) (st2 : CrawlState) (log2 : List String),
      run_trace st log t = Except.ok (st2, log2) →
      ∀ u ∈ st.visited, u ∈ log2 → u ∈ log := by
  induction t with
  | nil =>
    intro st log st2 log2 h u _ hu2
    have h2 : st = st2 ∧ log = log2 := by simpa [run_trace] using h
    rw [h2.2]
    exact hu2
  | cons i rest ih =>
    intro st log st2 log2 h u hu hu2
    cases hc : run_cycle st i.front i.top_news i.result_of with
    | error e => simp [run_trace, hc] at h
    | ok p =>
      simp only [run_trace, hc] at h
      have hcv := run_cycle_visited_mono st i.front i.top_news i.result_of p.1 p.2 hc
      have h3 := ih p.1 (log ++ p.2) st2 log2 h u (hcv.1 hu) hu2
      rcases List.mem_append.mp h3 with h4 | h4
      · exact h4
      · exact absurd h4 (hcv.2 u hu)

/-- Claim C2 counterexample: fetch_page can raise an exception to its
caller: a 200 response carrying no Content-Type header raises KeyError at
the raw header lookup (fetcher.py line 35), and a ServerDisconnectedError
is caught by none of the except-clauses and propagates — so not every
failure path is captured and returned as a failure-valued FetchResult. -/
theorem fetch_page_can_raise :
    fetch_page (RequestOutcome.response respNoContentType) "http://x" []
      = Except.error (PyExc.keyError "Content-Type") ∧
    fetch_page RequestOutcome.serverDisconnectedError "http://x" []
      = Except.error PyExc.serverDisconnected :=
  ⟨by decide, by decide⟩

/-- Claim C2 (amended): every failure kind caught at the Fetcher boundary —
timeout, invalid URL, ClientResponseError, ClientOSError, and any body-read
failure — is returned as the failure FetchResult with status and content
absent; every response carrying a Content-Type header yields a returned
FetchResult (the failure value or one with status and content present);
and the only raising paths are the two uncaught ones: a missing
Content-Type header (KeyError) and a server disconnect. -/
theorem fetch_page_caught_failures_return (o : RequestOutcome) (link : String)
    (params : List (String × String)) :
    ((∀ resp, o ≠ RequestOutcome.response resp) →
      o ≠ RequestOutcome.serverDisconnectedError →
      fetch_page o link params = Except.ok (failureFetchResult link params)) ∧
    (∀ resp, o = RequestOutcome.response resp → ∀ ct, resp.contentType = some ct →
      ∃ fr, fetch_page o link params = Except.ok fr ∧
        (fr = failureFetchResult link params ∨
          ∃ s c, fr.status = some s ∧ fr.content = some c)) ∧
    (∀ e, fetch_page o link params = Except.error e →
      (o = RequestOutcome.serverDisconnectedError ∧ e = PyExc.serverDisconnected) ∨
      (∃ resp, o = RequestOutcome.response resp ∧ resp.contentType = none ∧
        e = PyExc.keyError "Content-Type")) := by
  refine ⟨?_, ?_, ?_⟩
  · intro h hsd
    cases o with
    | timeoutError => rfl
    | invalidURL => rfl
    | clientResponseError s => rfl
    | clientOSError => rfl
    | serverDisconnectedError => exact absurd rfl hsd
    | response resp => exact absurd rfl (h resp)
  · intro resp ho ct hct
    subst ho
    simp only [fetch_page, hct]
    cases hb : (if ct ∈ ALLOWED_FILE_CONTENT_TYPES
        then Except.map Content.bytes resp.readBody
        else Except.map Content.text resp.textBody) with
    | error e => exact ⟨failureFetchResult link params, by simp [hb], Or.inl rfl⟩
    | ok c =>
      exact ⟨FetchResult.mk (some resp.status) (some c) resp.encoding
          (guess_extension (pyStrip (pyPartitionBeforeSemicolon ct))) link params,
        by simp [hb], Or.inr ⟨resp.status, c, rfl, rfl⟩⟩
  · intro e he
    cases o with
    | timeoutError => simp [fetch_page] at he
    | invalidURL => simp [fetch_page] at he
    | clientResponseError s => simp [fetch_page] at he
    | clientOSError => simp [fetch_page] at he
    | serverDisconnectedError =>
      left
      refine ⟨rfl, ?_⟩
      have h2 : PyExc.serverDisconnected = e := Except.error.inj he
      exact h2.symm
    | response resp =>
      right
      cases hct : resp.contentType with
      | none =>
        refine ⟨resp, rfl, hct, ?_⟩
        simp only [fetch_page, hct] at he
        have h2 : PyExc.keyError "Content-Type" = e := Except.error.inj he
        exact h2.symm
      | some ct =>
        simp only [fetch_page, hct] at he
        split at he <;> exact Except.noConfusion he

theorem fetch_page_caught_failures_return_witness :
    ((∀ resp, RequestOutcome.timeoutError ≠ RequestOutcome.response resp) →
      RequestOutcome.timeoutError ≠ RequestOutcome.serverDisconnectedError →
      fetch_page RequestOutcome.timeoutError "https://news.ycombinator.com" []
        = Except.ok (failureFetchResult "https://news.ycombinator.com" [])) ∧
    (∀ resp, RequestOutcome.timeoutError = RequestOutcome.response resp →
      ∀ ct, resp.contentType = some ct →
      ∃ fr, fetch_page RequestOutcome.timeoutError "https://news.ycombinator.com" []
          = Except.ok fr ∧
        (fr = failureFetchResult "https://news.ycombinator.com" [] ∨
          ∃ s c, fr.status = some s ∧ fr.content = some c)) ∧
    (∀ e, fetch_page RequestOutcome.timeoutError "https://news.ycombinator.com" []
        = Except.error e →
      (RequestOutcome.timeoutError = RequestOutcome.serverDisconnectedError ∧
        e = PyExc.serverDisconnected) ∨
      (∃ resp, RequestOutcome.timeoutError = RequestOutcome.response resp ∧
        resp.contentType = none ∧ e = PyExc.keyError "Content-Type")) :=
  fetch_page_caught_failures_return RequestOutcome.timeoutError
    "https://news.ycombinator.com" []

/-- Claim C3 counterexample: with the content fetched successfully but the
disk write failing, fetch_and_download raises OSError to its caller instead
of returning succeeded = false. -/
theorem fetch_and_download_raises_on_write_error :
    fetch_and_download envWriteFails (RequestOutcome.response respHtmlHello)
      "u1" "http://x" "d" [] false
      = Except.error (PyExc.osError "d/u1.html") := by decide

/-- Claim C3 (amended): every Fetcher failure that the fetch_page
except-clauses catch is folded into a returned succeeded-false
DownloadResult with no write attempted and no exception; but
fetch_and_download can throw outward in exactly two ways: an exception the
fetch itself raises (a missing-Content-Type KeyError or a server
disconnect, see fetch_page) propagates unchanged, and a Writer failure
(directory creation or disk write) raises an OSError, the latter arising
only when content was fetched and dry_run is off. -/
theorem fetch_and_download_error_shape (env : FsEnv) (o : RequestOutcome)
    (uid link dir : String) (params : List (String × String)) (dry_run : Bool) :
    (∀ fr, fetch_page o link params = Except.ok fr → pyTruthy fr.content = false →
      fetch_and_download env o uid link dir params dry_run
        = Except.ok (DownloadResult.mk uid none false, [])) ∧
    (∀ e, fetch_and_download env o uid link dir params dry_run = Except.error e →
      fetch_page o link params = Except.error e ∨
      (∃ p, e = PyExc.osError p ∧ dry_run = false ∧
        ∃ fr, fetch_page o link params = Except.ok fr ∧ pyTruthy fr.content = true)) := by
  constructor
  · intro fr hok h
    exact fad_falsy env o uid link dir params dry_run fr hok h
  · intro e he
    cases hfp : fetch_page o link params with
    | error e2 =>
      left
      rw [fad_error_propagates env o uid link dir params dry_run e2 hfp] at he
      exact congrArg Except.error (Except.error.inj he)
    | ok fr =>
      cases hpt : pyTruthy fr.content with
      | false =>
        rw [fad_falsy env o uid link dir params dry_run fr hfp hpt] at he
        simp at he
      | true =>
        obtain ⟨c, hc, hce⟩ := truthy_content fr hpt
        rcases fad_truthy_shape env o uid link dir params dry_run fr c hfp hc hce with
          ⟨h1, h2⟩ | ⟨effs, h1, h2⟩ | ⟨p, h1, h2⟩
        · rw [h1] at he; simp at he
        · rw [h1] at he; simp at he
        · rw [h1] at he
          right
          refine ⟨p, ?_, h2, fr, rfl, hpt⟩
          injection he with h3
          exact h3.symm

theorem fetch_and_download_error_shape_witness :
    fetch_and_download envAllOk RequestOutcome.timeoutError "u1" "http://x" "d" [] false
      = Except.ok (DownloadResult.mk "u1" none false, []) :=
  (fetch_and_download_error_shape envAllOk RequestOutcome.timeoutError
    "u1" "http://x" "d" [] false).1
    (failureFetchResult "http://x" []) (by decide) (by decide)

/-- Claim C5: when the front-page fetch yields no content (absent, or an
empty text or bytes body), the orchestration cycle returns with the state
unchanged, no tasks launched and no exception; `YCrawler.run` then sleeps
the fixed interval before the next cycle as it does unconditionally
(real-time sleeping is outside the embedding). -/
theorem empty_front_page_skips_cycle (st : CrawlState)
    (top_news : List (String × String)) (result_of : String → Option String × Bool) :
    run_cycle st none top_news result_of = Except.ok (st, []) ∧
    run_cycle st (some (Content.text "")) top_news result_of = Except.ok (st, []) ∧
    run_cycle st (some (Content.bytes [])) top_news result_of = Except.ok (st, []) := by
  have h1 : pyTruthy (some (Content.text "")) = false := by decide
  have h2 : pyTruthy (some (Content.bytes [])) = false := by decide
  refine ⟨rfl, ?_, ?_⟩ <;> simp [run_cycle, h1, h2]

/-- Claim C7 (code bug): with an unrecognized content type, guess_extension
yields None and fetcher.py line 82 formats it with '%s', so the stored
filename is the identifier with the literal text "None" appended — not the
bare identifier the spec describes — while the write itself still succeeds. -/
theorem unknown_content_type_filename_bug :
    fetch_and_download envAllOk (RequestOutcome.response respUnknownType)
      "12345" "http://x" "pages/12345" [] false
      = Except.ok (DownloadResult.mk "12345" (some "pages/12345/12345None") true,
          [FsEffect.writeFile "pages/12345/12345None" (Content.text "hello")]) ∧
    guess_extension (pyStrip (pyPartitionBeforeSemicolon "application/x-foobar")) = none :=
  ⟨by decide, by decide⟩

/-- Claim C8: dry-run purity of fetch_and_download: on every fetch that
returns a FetchResult (the claim's scope of "identical fetch responses"),
the dry-run call completes with zero filesystem effects, and whenever the
corresponding non-dry-run call completes, the dry-run call returns the very
same DownloadResult (hence the same succeeded flag) with no effects. -/
theorem dry_run_purity (env : FsEnv) (o : RequestOutcome) (uid link dir : String)
    (params : List (String × String)) :
    (∀ fr, fetch_page o link params = Except.ok fr →
      ∃ r, fetch_and_download env o uid link dir params true = Except.ok (r, [])) ∧
    (∀ r2 effs, fetch_and_download env o uid link dir params false = Except.ok (r2, effs) →
      fetch_and_download env o uid link dir params true = Except.ok (r2, [])) := by
  constructor
  · intro fr hok
    cases hpt : pyTruthy fr.content with
    | false => exact ⟨_, fad_falsy env o uid link dir params true fr hok hpt⟩
    | true =>
      obtain ⟨c, hc, hce⟩ := truthy_content fr hpt
      rcases fad_truthy_shape env o uid link dir params true fr c hok hc hce with
        ⟨h1, _⟩ | ⟨_, _, h2⟩ | ⟨_, _, h2⟩
      · exact ⟨_, h1⟩
      · simp at h2
      · simp at h2
  · intro r2 effs he
    cases hfp : fetch_page o link params with
    | error e =>
      rw [fad_error_propagates env o uid link dir params false e hfp] at he
      simp at he
    | ok fr =>
      cases hpt : pyTruthy fr.content with
      | false =>
        have hdry := fad_falsy env o uid link dir params true fr hfp hpt
        have hwet := fad_falsy env o uid link dir params false fr hfp hpt
        rw [hwet] at he
        have h1 : DownloadResult.mk uid none false = r2 ∧ ([] : List FsEffect) = effs := by
          simpa using he
        rw [← h1.1]
        exact hdry
      | true =>
        obtain ⟨c, hc, hce⟩ := truthy_content fr hpt
        have hdry : fetch_and_download env o uid link dir params true
            = Except.ok (DownloadResult.mk uid
                (some (osPathJoin dir (uid ++ pyFormat fr.ext))) true, []) := by
          rcases fad_truthy_shape env o uid link dir params true fr c hfp hc hce with
            ⟨h1, _⟩ | ⟨_, _, h2⟩ | ⟨_, _, h2⟩
          · exact h1
          · simp at h2
          · simp at h2
        rcases fad_truthy_shape env o uid link dir params false fr c hfp hc hce with
          ⟨_, h2⟩ | ⟨effs2, h1, _⟩ | ⟨p, h1, _⟩
        · simp at h2
        · rw [h1] at he
          have h3 : DownloadResult.mk uid
              (some (osPathJoin dir (uid ++ pyFormat fr.ext))) true = r2 ∧
              effs2 = effs := by simpa using he
          rw [← h3.1]
          exact hdry
        · rw [h1] at he
          simp at he

theorem dry_run_purity_witness :
    fetch_and_download envAllOk (RequestOutcome.response respHtmlHello) "u1" "http://x" "d" [] true
      = Except.ok (DownloadResult.mk "u1" (some "d/u1.html") true, []) :=
  (dry_run_purity envAllOk (RequestOutcome.response respHtmlHello) "u1" "http://x" "d" []).2
    (DownloadResult.mk "u1" (some "d/u1.html") true)
    [FsEffect.writeFile "d/u1.html" (Content.text "hello")] (by decide)

/-- Claim C9 counterexample: a successful response declaring
"application/pdf; charset=utf-8" — application/pdf carrying a charset
parameter — is not matched by the allow-list membership test (which
compares the full header string), so its body is decoded as text, not read
as raw bytes as the claim requires for such declared types. -/
theorem pdf_with_charset_read_as_text :
    fetch_page (RequestOutcome.response respPdfWithCharset) "http://x" []
        = Except.ok (FetchResult.mk (some 200) (some (Content.text "pdftext")) none
            (some ".pdf") "http://x" []) ∧
    some (Content.text "pdftext") ≠ some (Content.bytes [1, 2]) :=
  ⟨by decide, by decide⟩

/-- Claim C9 (amended): for a successful response that declares a
Content-Type and whose body reads succeed, fetch_page returns a
FetchResult whose body is raw bytes exactly when the full declared
Content-Type string equals an allow-list entry; a declared type carrying
extra parameters does not match and is decoded as text. -/
theorem raw_bytes_iff_exact_content_type (resp : HttpResponse) (link : String)
    (params : List (String × String)) (ct : String) (bs : List Nat) (s : String)
    (hct : resp.contentType = some ct)
    (hr : resp.readBody = Except.ok bs) (ht : resp.textBody = Except.ok s) :
    ∃ fr, fetch_page (RequestOutcome.response resp) link params = Except.ok fr ∧
      fr.content = some (if ct ∈ ALLOWED_FILE_CONTENT_TYPES
            then Content.bytes bs else Content.text s) := by
  refine ⟨FetchResult.mk (some resp.status)
      (some (if ct ∈ ALLOWED_FILE_CONTENT_TYPES then Content.bytes bs else Content.text s))
      resp.encoding (guess_extension (pyStrip (pyPartitionBeforeSemicolon ct))) link params,
    ?_, rfl⟩
  by_cases hm : ct ∈ ALLOWED_FILE_CONTENT_TYPES
  · simp [fetch_page, hct, hm, hr, Except.map]
  · simp [fetch_page, hct, hm, ht, Except.map]

theorem raw_bytes_iff_exact_content_type_witness :
    ∃ fr, fetch_page (RequestOutcome.response
        (HttpResponse.mk 200 (some "application/pdf") none (Except.ok [7]) (Except.ok "x")))
      "http://x" [] = Except.ok fr ∧
      fr.content = some (if ("application/pdf" : String) ∈ ALLOWED_FILE_CONTENT_TYPES
            then Content.bytes [7] else Content.text "x") :=
  raw_bytes_iff_exact_content_type
    (HttpResponse.mk 200 (some "application/pdf") none (Except.ok [7]) (Except.ok "x"))
    "http://x" [] "application/pdf" [7] "x" rfl rfl rfl

/-- Claim C10: a fetch completing with a 2xx status (hence a returned
FetchResult, its Content-Type header declared) but an empty body is
classified by fetch_and_download exactly like a failed fetch: a
succeeded-false DownloadResult with no filepath, and no filesystem effect. -/
theorem empty_body_counts_as_failure (env : FsEnv) (resp : HttpResponse)
    (uid link dir : String) (params : List (String × String)) (dry_run : Bool) (ct : String)
    (h2xx : 200 ≤ resp.status ∧ resp.status < 300)
    (hct : resp.contentType = some ct)
    (hr : resp.readBody = Except.ok []) (ht : resp.textBody = Except.ok "") :
    fetch_and_download env (RequestOutcome.response resp) uid link dir params dry_run
      = Except.ok (DownloadResult.mk uid none false, []) := by
  obtain ⟨fr, hok, hfalse⟩ : ∃ fr,
      fetch_page (RequestOutcome.response resp) link params = Except.ok fr ∧
      pyTruthy fr.content = false := by
    by_cases hm : ct ∈ ALLOWED_FILE_CONTENT_TYPES
    · exact ⟨FetchResult.mk (some resp.status) (some (Content.bytes [])) resp.encoding
        (guess_extension (pyStrip (pyPartitionBeforeSemicolon ct))) link params,
        by simp [fetch_page, hct, hm, hr, Except.map], rfl⟩
    · exact ⟨FetchResult.mk (some resp.status) (some (Content.text "")) resp.encoding
        (guess_extension (pyStrip (pyPartitionBeforeSemicolon ct))) link params,
        by simp [fetch_page, hct, hm, ht, Except.map], rfl⟩
  exact fad_falsy env (RequestOutcome.response resp) uid link dir params dry_run fr hok hfalse

theorem empty_body_counts_as_failure_witness :
    fetch_and_download envAllOk
      (RequestOutcome.response
        (HttpResponse.mk 204 (some "text/html") none (Except.ok []) (Except.ok "")))
      "101" "http://x" "pages/101" [] false
      = Except.ok (DownloadResult.mk "101" none false, []) :=
  empty_body_counts_as_failure envAllOk
    (HttpResponse.mk 204 (some "text/html") none (Except.ok []) (Except.ok ""))
    "101" "http://x" "pages/101" [] false "text/html" (by decide) rfl rfl rfl

/-- Claim C1 counterexample: the set `scheduled` does not only grow. In the
very first cycle the id "1" is added to scheduled by the Filter & Schedule
step, and the Reconcile step of the same cycle removes it again, leaving
scheduled empty: the schedule-then-reconcile transition shrinks scheduled. -/
theorem scheduled_can_shrink :
    "1" ∈ (schedule_step initState [("1", "u")]).1.scheduled ∧
    run_cycle initState (some (Content.text "x")) [("1", "u")] (fun _ => (none, true))
      = Except.ok (CrawlState.mk ∅ {"1"}, ["1"]) ∧
    "1" ∉ (CrawlState.mk (∅ : Finset String) {"1"}).scheduled :=
  ⟨by decide, by rfl, by decide⟩

/-- Claim C1 (amended): over any sequence of orchestrator cycles from the
initial state, each story id is launched in at most one Page Processor task
(the accumulated launch log has no duplicates), the set visited and the
union scheduled ∪ visited only grow, no cycle raises, scheduled and visited
are disjoint after every Reconcile step (i.e. in every reachable state),
and disjoint after every Filter & Schedule step run from a reachable state. -/
theorem crawl_dedup_invariants (t1 t2 : List CycleInput) (st1 : CrawlState)
    (log1 : List String)
    (h1 : run_trace initState [] t1 = Except.ok (st1, log1)) :
    ∃ st2 log2, run_trace initState [] (t1 ++ t2) = Except.ok (st2, log2) ∧
      log2.Nodup ∧ Disjoint st2.scheduled st2.visited ∧
      st1.visited ⊆ st2.visited ∧
      st1.scheduled ∪ st1.visited ⊆ st2.scheduled ∪ st2.visited ∧
      ∀ tn, Disjoint (schedule_step st2 tn).1.scheduled
        (schedule_step st2 tn).1.visited := by
  have hg0 : goodState initState [] := by
    refine ⟨?_, List.nodup_nil, ?_⟩ <;> simp [initState]
  obtain ⟨st1A, log1A, ht1, hg1, _, _⟩ := run_trace_preserves t1 initState [] hg0
  rw [h1] at ht1
  have h2 := Except.ok.inj ht1
  have he1 : st1 = st1A := congrArg Prod.fst h2
  have he2 : log1 = log1A := congrArg Prod.snd h2
  subst he1
  subst he2
  obtain ⟨st2, log2, ht2, hg2, hv2, hu2⟩ := run_trace_preserves t2 st1 log1 hg1
  refine ⟨st2, log2, ?_, hg2.2.1, hg2.1, hv2, hu2,
    fun tn => schedule_step_disjoint st2 tn hg2.1⟩
  rw [run_trace_append t1 t2 initState [], h1]
  exact ht2

theorem crawl_dedup_invariants_witness :
    ∃ st2 log2,
      run_trace initState []
        ([] ++ [CycleInput.mk (some (Content.text "x")) [("1", "u")] (fun _ => (none, true))])
        = Except.ok (st2, log2) ∧
      log2.Nodup ∧ Disjoint st2.scheduled st2.visited ∧
      initState.visited ⊆ st2.visited ∧
      initState.scheduled ∪ initState.visited ⊆ st2.scheduled ∪ st2.visited ∧
      ∀ tn, Disjoint (schedule_step st2 tn).1.scheduled
        (schedule_step st2 tn).1.visited :=
  crawl_dedup_invariants []
    [CycleInput.mk (some (Content.text "x")) [("1", "u")] (fun _ => (none, true))]
    initState [] rfl

/-- Claim C4: the Reconcile step moves every completed result's id from
scheduled to visited with no regard to the result's success flag (the
results list here is arbitrary, failed results included), and an id in
visited is never launched again by any later sequence of cycles: any id of
a reconciled result that appears in a later trace's accumulated launch log
was already in the log before that trace began. -/
theorem reconcile_marks_visited_regardless (st : CrawlState) (rs : List DownloadResult)
    (hmem : ∀ r ∈ rs, r.uid ∈ st.scheduled)
    (hnd : (rs.map DownloadResult.uid).Nodup) :
    ∃ st2, reconcile st rs = Except.ok st2 ∧
      (∀ r ∈ rs, r.uid ∈ st2.visited ∧ r.uid ∉ st2.scheduled) ∧
      (∀ t log st3 log3, run_trace st2 log t = Except.ok (st3, log3) →
        ∀ r ∈ rs, r.uid ∈ log3 → r.uid ∈ log) := by
  obtain ⟨st2, hok, hs, hv⟩ := reconcile_ok rs st hmem hnd
  refine ⟨st2, hok, ?_, ?_⟩
  · intro r hr
    have hm : r.uid ∈ rs.map DownloadResult.uid := List.mem_map_of_mem DownloadResult.uid hr
    exact ⟨(hv r.uid).mpr (Or.inr hm), fun hsch => ((hs r.uid).mp hsch).2 hm⟩
  · intro t log st3 log3 htr r hr hlog
    have hvis : r.uid ∈ st2.visited :=
      (hv r.uid).mpr (Or.inr (List.mem_map_of_mem DownloadResult.uid hr))
    exact visited_stays_logged t st2 log st3 log3 htr r.uid hvis hlog

theorem reconcile_marks_visited_regardless_witness :
    ∃ st2, reconcile (CrawlState.mk {"1"} ∅) [DownloadResult.mk "1" none false]
        = Except.ok st2 ∧
      (∀ r ∈ [DownloadResult.mk "1" none false], r.uid ∈ st2.visited ∧ r.uid ∉ st2.scheduled) ∧
      (∀ t log st3 log3, run_trace st2 log t = Except.ok (st3, log3) →
        ∀ r ∈ [DownloadResult.mk "1" none false], r.uid ∈ log3 → r.uid ∈ log) :=
  reconcile_marks_visited_regardless (CrawlState.mk {"1"} ∅)
    [DownloadResult.mk "1" none false] (by decide) (by decide)

lemma process_page_first_component (env : FsEnv) (storyO discO : RequestOutcome)
    (commentAt : Nat → RequestOutcome) (uuidAt : Nat → String)
    (parse_comments : Content → List String) (uid link dir : String) (dry : Bool) :
    ∀ out, process_page env storyO discO commentAt uuidAt parse_comments uid link dir dry
        = Except.ok out →
      ∃ effs, fetch_and_download env storyO uid link dir [] dry = Except.ok (out.1, effs) := by
  intro out h
  cases hst : fetch_and_download env storyO uid link dir [] dry with
  | error e => simp [process_page, hst] at h
  | ok dr =>
    simp only [process_page, hst] at h
    repeat' split at h
    all_goals
      first
      | exact Except.noConfusion h
      | exact ⟨dr.2, by rw [← congrArg Prod.fst (Except.ok.inj h)]⟩

/-- A launched page-processor task returns a DownloadResult carrying the
very uid it was launched with (supports the `result_of` abstraction in
`run_cycle`). -/
lemma process_page_uid (env : FsEnv) (storyO discO : RequestOutcome)
    (commentAt : Nat → RequestOutcome) (uuidAt : Nat → String)
    (parse_comments : Content → List String) (uid link dir : String) (dry : Bool)
    (out : DownloadResult × List FsEffect)
    (h : process_page env storyO discO commentAt uuidAt parse_comments uid link dir dry
        = Except.ok out) :
    out.1.uid = uid := by
  obtain ⟨effs, h2⟩ := process_page_first_component env storyO discO commentAt uuidAt
    parse_comments uid link dir dry out h
  cases hfp : fetch_page storyO link [] with
  | error e =>
    rw [fad_error_propagates env storyO uid link dir [] dry e hfp] at h2
    exact Except.noConfusion h2
  | ok fr =>
    cases hpt : pyTruthy fr.content with
    | false =>
      rw [fad_falsy env storyO uid link dir [] dry fr hfp hpt] at h2
      have h3 := Except.ok.inj h2
      rw [← congrArg Prod.fst h3]
    | true =>
      obtain ⟨c, hc, hce⟩ := truthy_content fr hpt
      rcases fad_truthy_shape env storyO uid link dir [] dry fr c hfp hc hce with
        ⟨h1, _⟩ | ⟨effs2, h1, _⟩ | ⟨p, h1, _⟩
      · rw [h1] at h2
        have h3 := Except.ok.inj h2
        rw [← congrArg Prod.fst h3]
      · rw [h1] at h2
        have h3 := Except.ok.inj h2
        rw [← congrArg Prod.fst h3]
      · rw [h1] at h2
        exact Except.noConfusion h2

lemma gather_links_of_failing (env : FsEnv) (commentAt : Nat → RequestOutcome)
    (uuidAt : Nat → String) (dir : String) (dry : Bool)
    (hfail : ∀ n l, ∃ fr, fetch_page (commentAt n) l [] = Except.ok fr ∧
      pyTruthy fr.content = false) :
    ∀ (i : Nat) (links : List String),
      gather_links env commentAt uuidAt dir dry i links = Except.ok [] := by
  intro i links
  induction links generalizing i with
  | nil => rfl
  | cons lnk rest ih =>
    obtain ⟨fr, hok, hfalse⟩ := hfail i lnk
    have h1 := fad_falsy env (commentAt i) (uuidAt i) lnk (osPathJoin dir "links") [] dry
      fr hok hfalse
    simp [gather_links, h1, ih]

/-- Claim C6: the DownloadResult returned by process_page is exactly the
result of the story's own fetch_and_download call: whenever process_page
returns, its first component equals that result, whatever the
discussion-page and comment-link outcomes were; and in particular when the
discussion fetch returns and every comment-link fetch fails (returns a
content-less FetchResult), the call still completes with the story's own
result, the same as when they all succeed. -/
theorem process_page_returns_story_result (env : FsEnv) (storyO discO : RequestOutcome)
    (commentAt : Nat → RequestOutcome) (uuidAt : Nat → String)
    (parse_comments : Content → List String) (uid link dir : String) (dry : Bool)
    (r : DownloadResult) (effs : List FsEffect)
    (hstory : fetch_and_download env storyO uid link dir [] dry = Except.ok (r, effs)) :
    (∀ out, process_page env storyO discO commentAt uuidAt parse_comments uid link dir dry
        = Except.ok out → out.1 = r) ∧
    ((∃ frd, fetch_page discO COMMENT_PAGE_URL [("id", uid)] = Except.ok frd) →
      (∀ n l, ∃ fr, fetch_page (commentAt n) l [] = Except.ok fr ∧
        pyTruthy fr.content = false) →
      ∃ effs2, process_page env storyO discO commentAt uuidAt parse_comments uid link dir dry
        = Except.ok (r, effs2)) := by
  constructor
  · intro out hout
    obtain ⟨effs3, h3⟩ := process_page_first_component env storyO discO commentAt uuidAt
      parse_comments uid link dir dry out hout
    rw [hstory] at h3
    exact (congrArg Prod.fst (Except.ok.inj h3)).symm
  · intro hdisc hfail
    obtain ⟨frd, hfrd⟩ := hdisc
    simp only [process_page, hstory, hfrd]
    cases hdc : frd.content with
    | none => exact ⟨effs, rfl⟩
    | some c =>
      cases hce : c.isEmpty with
      | true =>
        simp only [hce, if_true]
        exact ⟨effs, rfl⟩
      | false =>
        simp only [hce, Bool.false_eq_true, if_false]
        cases hpl : (parse_comments c).isEmpty with
        | true =>
          simp only [hpl, if_true]
          exact ⟨effs, rfl⟩
        | false =>
          simp only [hpl, Bool.false_eq_true, if_false,
            gather_links_of_failing env commentAt uuidAt dir dry hfail 0 (parse_comments c)]
          exact ⟨effs ++ [], rfl⟩

theorem process_page_returns_story_result_witness :
    (∀ out, process_page envAllOk (RequestOutcome.response respHtmlHello)
        RequestOutcome.timeoutError (fun _ : Nat => RequestOutcome.timeoutError)
        (fun _ : Nat => "cu")
        (fun _ : Content => ([] : List String)) "u1" "http://x" "d" true = Except.ok out →
      out.1 = DownloadResult.mk "u1" (some "d/u1.html") true) ∧
    ((∃ frd, fetch_page RequestOutcome.timeoutError COMMENT_PAGE_URL [("id", "u1")]
        = Except.ok frd) →
      (∀ n l, ∃ fr, fetch_page ((fun _ : Nat => RequestOutcome.timeoutError) n) l []
          = Except.ok fr ∧ pyTruthy fr.content = false) →
      ∃ effs2, process_page envAllOk (RequestOutcome.response respHtmlHello)
        RequestOutcome.timeoutError (fun _ : Nat => RequestOutcome.timeoutError)
        (fun _ : Nat => "cu")
        (fun _ : Content => ([] : List String)) "u1" "http://x" "d" true
        = Except.ok (DownloadResult.mk "u1" (some "d/u1.html") true, effs2)) :=
  process_page_returns_story_result envAllOk (RequestOutcome.response respHtmlHello)
    RequestOutcome.timeoutError (fun _ : Nat => RequestOutcome.timeoutError)
    (fun _ : Nat => "cu")
    (fun _ : Content => ([] : List String)) "u1" "http://x" "d" true
    (DownloadResult.mk "u1" (some "d/u1.html") true) [] (by decide)

end YCrawlerModel
